import Mathlib

/-!
# Verification of the DealHunt Reddit post → deal extraction pipeline

Shallow embedding of `src/backend/src/services/reddit/parser.ts`.

Modelling conventions:
* JS strings are modelled as `List Char` (Unicode scalar values); where a JS
  operation counts UTF-16 code units (`String.prototype.length`) we use
  `jsLength`, which counts astral-plane characters twice.
* JS `number` values arising from `parseFloat`/`parseInt` of price captures
  are modelled as `ℚ` (all such values are small decimals, exactly
  representable in a double); `NaN` is modelled by `Option.none`.
* The regular expressions of the source are embedded as bespoke matchers
  with JavaScript semantics (leftmost match, greedy/lazy quantifiers, the
  dot not matching line terminators, case-insensitivity where the `i` flag
  is present).  Case-insensitive matching and `toLowerCase`/`toUpperCase`
  are modelled on ASCII (every pattern of the source is ASCII except for
  the literal characters reproduced verbatim below).
* The source file contains double-encoded (mojibake) currency symbols and
  decorative symbols; the embedding reproduces the exact code points that
  appear in the file, since those are what the program actually matches.
-/

namespace DealHunt

/-! ## Character classes and primitive matchers -/

/-- ASCII lower-casing, the model of `toLowerCase` / the `i` regex flag. -/
def asciiLower (c : Char) : Char :=
  if 65 ≤ c.toNat ∧ c.toNat ≤ 90 then Char.ofNat (c.toNat + 32) else c

/-- ASCII upper-casing, the model of `charAt(0).toUpperCase()`. -/
def asciiUpper (c : Char) : Char :=
  if 97 ≤ c.toNat ∧ c.toNat ≤ 122 then Char.ofNat (c.toNat - 32) else c

/-- Case-insensitive character comparison (ASCII folding). -/
def eqCI (a b : Char) : Bool :=
  asciiLower a == asciiLower b

/-- The JavaScript `\s` class (also the set trimmed by `String.trim`). -/
def isJsWhitespace (c : Char) : Bool :=
  c.toNat == 9 || c.toNat == 10 || c.toNat == 11 || c.toNat == 12 ||
  c.toNat == 13 || c.toNat == 32 || c.toNat == 0xA0 || c.toNat == 0x1680 ||
  (0x2000 ≤ c.toNat && c.toNat ≤ 0x200A) || c.toNat == 0x2028 ||
  c.toNat == 0x2029 || c.toNat == 0x202F || c.toNat == 0x205F ||
  c.toNat == 0x3000 || c.toNat == 0xFEFF

/-- JS line terminators: `.` in a regex without the `s` flag matches
anything except these. -/
def isLineTerm (c : Char) : Bool :=
  c.toNat == 10 || c.toNat == 13 || c.toNat == 0x2028 || c.toNat == 0x2029

/-- The `[\d,]` class of the price regexes. -/
def isDigitComma (c : Char) : Bool :=
  c.isDigit || c == ','

/-- Match a literal at the head of `s` (case-insensitively when `ci`),
returning the remainder. -/
def litHere (ci : Bool) : List Char → List Char → Option (List Char)
  | [], s => some s
  | _ :: _, [] => none
  | p :: ps, c :: cs =>
      if (if ci then eqCI p c else p == c) then litHere ci ps cs else none

/-- `litHere` as a Boolean head test. -/
def leadsWith (ci : Bool) (p s : List Char) : Bool :=
  (litHere ci p s).isSome

/-- Substring test, the model of `String.prototype.includes` (and of the
purely-literal regexes of the source when `ci` is set, matching their `i`
flag). -/
def hasSub (ci : Bool) (p : List Char) : List Char → Bool
  | [] => p.isEmpty
  | c :: rest => leadsWith ci p (c :: rest) || hasSub ci p rest

/-- Case-insensitive suffix test (the `\.jpg$`-style patterns). -/
def endsWithCI (p s : List Char) : Bool :=
  leadsWith true p.reverse s.reverse

/-- Leftmost-match scan: try the matcher at every position, in order,
including the empty suffix — the search strategy of `String.match`. -/
def scanFirst {α : Type} (f : List Char → Option α) : List Char → Option α
  | [] => f []
  | c :: rest =>
      match f (c :: rest) with
      | some v => some v
      | none => scanFirst f rest

/-- The lazy `.*?X` search: try `X` here, otherwise consume one character
(which must not be a line terminator, since `.` does not match those) and
continue. -/
def lazyFind {α : Type} (f : List Char → Option α) : List Char → Option α
  | [] => f []
  | c :: rest =>
      match f (c :: rest) with
      | some v => some v
      | none => if isLineTerm c then none else lazyFind f rest

/-- UTF-16 code-unit length, the model of JS `String.prototype.length`. -/
def jsLength (s : List Char) : Nat :=
  (s.map fun c => if c.toNat ≥ 0x10000 then 2 else 1).sum

/-- `String.prototype.trim`. -/
def jsTrim (s : List Char) : List Char :=
  ((s.dropWhile isJsWhitespace).reverse.dropWhile isJsWhitespace).reverse

/-! ## Number parsing (`parseFloat` on the price captures) -/

/-- Decimal digits to a natural number. -/
def digitsToNat (ds : List Char) : Nat :=
  ds.foldl (fun a c => a * 10 + (c.toNat - 48)) 0

/-- `parseFloat(cap.replace(/,/g, ""))` for a capture of shape
`[\d,]+(\.\d{2})?`: strip the commas, read an optional two-digit decimal
part; an all-comma capture yields `NaN`, modelled as `none`. -/
def jsParseFloatCap (cap : List Char) : Option ℚ :=
  let s := cap.filter fun c => c ≠ ','
  let ip := s.takeWhile Char.isDigit
  let rest := s.drop ip.length
  match rest with
  | '.' :: ds =>
      if ip.isEmpty ∧ ds.isEmpty then none
      else
        some (mkRat (Int.ofNat (digitsToNat ip * 10 ^ ds.length + digitsToNat ds))
          (10 ^ ds.length))
  | _ => if ip.isEmpty then none else some (mkRat (Int.ofNat (digitsToNat ip)) 1)

/-! ## Currency/price extraction (`extractPriceWithCurrency`) -/

/-- A currency marker: a required literal, an optional single trailing
character (the `\.?` of `Rs\.?` and the `?` that quantifies the final
character of the mojibake INR symbol), and the `i`-flag. -/
structure SymPat where
  req : List Char
  opt : Option Char
  ci : Bool
deriving Repr

/-- Match the marker of `sp` at the head of `s` and run `cont` on the
remainder; the optional character is consumed greedily, retrying without it
if the continuation fails (JS backtracking for `x?`). -/
def optHere {α : Type} (sp : SymPat) (cont : List Char → Option α) (s : List Char) :
    Option α :=
  match litHere sp.ci sp.req s with
  | none => none
  | some r =>
      match sp.opt with
      | none => cont r
      | some oc =>
          match r with
          | [] => cont r
          | c :: r2 =>
              if (if sp.ci then eqCI oc c else oc == c) then
                match cont r2 with
                | some v => some v
                | none => cont r
              else cont r

/-- `\s*([\d,]+(?:\.\d{2})?)` — returns the capture. -/
def moneyTail (s : List Char) : Option (List Char) :=
  let r := s.dropWhile isJsWhitespace
  let ip := r.takeWhile isDigitComma
  if ip.isEmpty then none
  else
    match r.drop ip.length with
    | '.' :: a :: b :: _ =>
        if a.isDigit && b.isDigit then some (ip ++ ['.', a, b]) else some ip
    | _ => some ip

/-- One single-price pattern `SYM\s*([\d,]+(?:\.\d{2})?)` tried at a
position. -/
def moneyAt (sp : SymPat) (s : List Char) : Option (List Char) :=
  optHere sp moneyTail s

/-- The mojibake EUR symbol as it appears (double-encoded) in the source. -/
def eurSym : List Char := [Char.ofNat 0x201A, Char.ofNat 0xC7, Char.ofNat 0xA8]

/-- The mojibake GBP symbol as it appears in the source. -/
def gbpSym : List Char := [Char.ofNat 0xAC, Char.ofNat 0xA3]

/-- The mojibake INR symbol as it appears in the source. -/
def inrSym : List Char := [Char.ofNat 0x201A, Char.ofNat 0xC7, Char.ofNat 0x3C0]

/-- `CURRENCY_PATTERNS` of the source, in declaration order. -/
def CURRENCY_PATTERNS : List (String × List SymPat) :=
  [("USD", [⟨['$'], none, false⟩]),
   ("EUR", [⟨eurSym, none, false⟩]),
   ("GBP", [⟨gbpSym, none, false⟩]),
   ("CAD", [⟨['C', '$'], none, true⟩, ⟨['C', 'A', 'D'], none, true⟩]),
   ("AUD", [⟨['A', '$'], none, true⟩, ⟨['A', 'U', 'D'], none, true⟩]),
   ("INR", [⟨inrSym, none, false⟩, ⟨['R', 's'], some '.', true⟩,
            ⟨['I', 'N', 'R'], none, true⟩])]

/-- `text.match(pattern)` for a single-price pattern followed by the
parse-and-validate step of the loop body: the first match is parsed and
accepted only if `0 < v < 10000000`. -/
def tryMoneyPat (sp : SymPat) (s : List Char) : Option ℚ :=
  match scanFirst (moneyAt sp) s with
  | none => none
  | some cap =>
      match jsParseFloatCap cap with
      | none => none
      | some v => if 0 < v ∧ v < 10000000 then some v else none

/-- Inner loop of `extractPriceWithCurrency` over one currency's patterns. -/
def priceFromPats : List SymPat → List Char → Option ℚ
  | [], _ => none
  | sp :: sps, s =>
      match tryMoneyPat sp s with
      | some v => some v
      | none => priceFromPats sps s

/-- Outer loop of `extractPriceWithCurrency` over the currency registry. -/
def priceFromCurrencies : List (String × List SymPat) → List Char → Option (ℚ × String)
  | [], _ => none
  | (cur, sps) :: rest, s =>
      match priceFromPats sps s with
      | some v => some (v, cur)
      | none => priceFromCurrencies rest s

/-- `extractPriceWithCurrency` of the source. -/
def extractPriceWithCurrency (text : String) : Option ℚ × String :=
  match priceFromCurrencies CURRENCY_PATTERNS text.toList with
  | some (v, cur) => (some v, cur)
  | none => (none, "USD")

/-- `extractPrice` of the source (legacy single-value form). -/
def extractPrice (text : String) : Option ℚ :=
  (extractPriceWithCurrency text).1

/-! ## Pair-price extraction (`extractPrices`) -/

/-- One pair pattern `SYM\s*([\d,]+).*?(?:KEYS).*?SYM2\s*([\d,]+)` (all
carry the `i` flag in the source). -/
structure PairPat where
  sym1 : SymPat
  keys : List (List Char)
  sym2 : SymPat
  currency : String
deriving Repr

/-- `\s*([\d,]+)` — capture and remainder. -/
def pairNumTail (s : List Char) : Option (List Char × List Char) :=
  let r := s.dropWhile isJsWhitespace
  let ip := r.takeWhile isDigitComma
  if ip.isEmpty then none else some (ip, r.drop ip.length)

/-- First alternative of `(?:k₁|k₂|…)` matching at the head of `s`. -/
def keyHere : List (List Char) → List Char → Option (List Char)
  | [], _ => none
  | k :: ks, s =>
      match litHere true k s with
      | some r => some r
      | none => keyHere ks s

/-- First capture group of a pair pattern at a position. -/
def pairFirstAt (sp : SymPat) (s : List Char) : Option (List Char × List Char) :=
  optHere sp pairNumTail s

/-- Second capture group of a pair pattern at a position. -/
def pairSecondAt (sp : SymPat) (s : List Char) : Option (List Char) :=
  optHere sp (fun r => (pairNumTail r).map Prod.fst) s

/-- A full pair pattern tried at a position: symbol + number, lazily skip
to a bridging keyword, lazily skip to the second symbol + number. -/
def pairAt (pp : PairPat) (s : List Char) : Option (List Char × List Char) :=
  match pairFirstAt pp.sym1 s with
  | none => none
  | some (cap1, r1) =>
      match lazyFind (keyHere pp.keys) r1 with
      | none => none
      | some r2 =>
          match lazyFind (pairSecondAt pp.sym2) r2 with
          | none => none
          | some cap2 => some (cap1, cap2)

/-- The bridging keywords `(?:was|from|original|reg)`. -/
def keysBase : List (List Char) :=
  [['w', 'a', 's'], ['f', 'r', 'o', 'm'],
   ['o', 'r', 'i', 'g', 'i', 'n', 'a', 'l'], ['r', 'e', 'g']]

/-- The bridging keywords `(?:mrp|was|from|original|reg)`. -/
def keysInr : List (List Char) := ['m', 'r', 'p'] :: keysBase

/-- `dealPatterns` of the source, in declaration order.  Note that in
`‚Çπ?` the `?` quantifies only the final character of the mojibake
symbol, and `Rs\.?` has an optional dot. -/
def DEAL_PATTERNS : List PairPat :=
  [⟨⟨['$'], none, true⟩, keysBase, ⟨['$'], none, true⟩, "USD"⟩,
   ⟨⟨eurSym, none, true⟩, keysBase, ⟨eurSym, none, true⟩, "EUR"⟩,
   ⟨⟨gbpSym, none, true⟩, keysBase, ⟨gbpSym, none, true⟩, "GBP"⟩,
   ⟨⟨inrSym, none, true⟩, keysInr,
    ⟨[Char.ofNat 0x201A, Char.ofNat 0xC7], some (Char.ofNat 0x3C0), true⟩, "INR"⟩,
   ⟨⟨['R', 's'], some '.', true⟩, keysInr, ⟨['R', 's'], some '.', true⟩, "INR"⟩]

/-- The pair-pattern loop of `extractPrices`: first regex match of each
pattern in order; a match whose captures parse to `NaN` is skipped (the
loop moves on to the next pattern). -/
def pairScanFrom : List PairPat → List Char → Option (ℚ × ℚ × String)
  | [], _ => none
  | pp :: rest, s =>
      match scanFirst (pairAt pp) s with
      | some (c1, c2) =>
          match jsParseFloatCap c1, jsParseFloatCap c2 with
          | some a, some b => some (a, b, pp.currency)
          | _, _ => pairScanFrom rest s
      | none => pairScanFrom rest s

/-- Result record of `extractPrices`. -/
structure PriceInfo where
  dealPrice : Option ℚ
  originalPrice : Option ℚ
  currency : String
deriving DecidableEq, Repr

/-- `extractPrices` of the source: the smaller capture is the deal price,
the larger the original; on no pair match, fall back to the single-price
mode with `originalPrice = null`. -/
def extractPrices (text : String) : PriceInfo :=
  match pairScanFrom DEAL_PATTERNS text.toList with
  | some (a, b, cur) => ⟨some (min a b), some (max a b), cur⟩
  | none =>
      let pc := extractPriceWithCurrency text
      ⟨pc.1, none, pc.2⟩

/-! ## Discount extraction (`extractDiscount`) -/

/-- `\s*%\s*(?:off|discount)` (case-insensitive). -/
def pctTail (s : List Char) : Bool :=
  match s.dropWhile isJsWhitespace with
  | '%' :: r2 =>
      let r3 := r2.dropWhile isJsWhitespace
      (litHere true ['o', 'f', 'f'] r3).isSome ||
        (litHere true ['d', 'i', 's', 'c', 'o', 'u', 'n', 't'] r3).isSome
  | _ => false

/-- `(\d{1,2})\s*%\s*(?:off|discount)` at a position: greedily try the
two-digit capture, backtracking to one digit. -/
def discountAt (s : List Char) : Option (List Char) :=
  match s with
  | [] => none
  | d1 :: rest =>
      if d1.isDigit then
        match rest with
        | d2 :: rest2 =>
            if d2.isDigit then
              if pctTail rest2 then some [d1, d2]
              else if pctTail rest then some [d1] else none
            else if pctTail rest then some [d1] else none
        | [] => none
      else none

/-- The derived-from-prices branch of `extractDiscount`; the JS condition
`dealPrice && originalPrice && originalPrice > dealPrice` makes a `0`
price (falsy) skip the computation. -/
def discountFromPrices (dealPrice originalPrice : Option ℚ) : Option ℤ :=
  match dealPrice, originalPrice with
  | some d, some o =>
      if d ≠ 0 ∧ o ≠ 0 ∧ d < o then
        let disc : ℤ := round ((o - d) / o * 100)
        if 0 < disc ∧ disc ≤ 100 then some disc else none
      else none
  | _, _ => none

/-- `extractDiscount` of the source: an explicit `N% off/discount` phrase
is preferred when its first match lies in `[1, 100]`; otherwise the value
is derived from the two prices. -/
def extractDiscount (text : String) (dealPrice originalPrice : Option ℚ) :
    Option ℤ :=
  match scanFirst discountAt text.toList with
  | some cap =>
      if 0 < digitsToNat cap ∧ digitsToNat cap ≤ 100 then some (digitsToNat cap : ℤ)
      else discountFromPrices dealPrice originalPrice
  | none => discountFromPrices dealPrice originalPrice

/-! ## URL harvesting (`isProductUrl`, `extractProductUrl`) -/

/-- The substring-style members of `SKIP_URL_PATTERNS` (all carry `i`). -/
def SKIP_SUB : List String :=
  ["reddit.com/media", "i.redd.it", "preview.redd.it", "v.redd.it",
   "reddit.com/gallery", "imgur.com"]

/-- The suffix-style members of `SKIP_URL_PATTERNS` (`\.jpg$` etc., `i`). -/
def SKIP_SUF : List String :=
  [".jpg", ".jpeg", ".png", ".gif", ".webp"]

/-- `isProductUrl` of the source: not an image/Reddit-media URL, and not
containing `reddit.com` (a case-sensitive `includes`). -/
def isProductUrl (url : String) : Bool :=
  let u := url.toList
  if SKIP_SUB.any (fun p => hasSub true p.toList u) ||
     SKIP_SUF.any (fun p => endsWithCI p.toList u) then false
  else if hasSub false ("reddit.com".toList) u then false
  else true

/-- `STORE_PATTERNS` of the source: every pattern is a case-insensitive
literal substring test, listed here in declaration order. -/
def STORE_PATTERNS : List (String × List String) :=
  [("Amazon", ["amazon.in", "amazon.com", "amazon.co.uk", "amazon.de",
               "amazon.ca", "amazon.com.au", "amzn.to", "amzn.com"]),
   ("Steam", ["store.steampowered.com", "steampowered.com"]),
   ("Epic Games", ["epicgames.com", "store.epicgames.com"]),
   ("GOG", ["gog.com"]),
   ("Humble Bundle", ["humblebundle.com"]),
   ("PlayStation", ["store.playstation.com", "playstation.com"]),
   ("Xbox", ["xbox.com", "microsoft.com/store"]),
   ("Nintendo", ["nintendo.com"]),
   ("Best Buy", ["bestbuy.com", "bestbuy.ca"]),
   ("Walmart", ["walmart.com", "walmart.ca"]),
   ("Target", ["target.com"]),
   ("Newegg", ["newegg.com"]),
   ("B&H Photo", ["bhphotovideo.com"]),
   ("eBay", ["ebay.com", "ebay.co.uk"]),
   ("AliExpress", ["aliexpress.com"]),
   ("Flipkart", ["flipkart.com", "fkrt.it"]),
   ("Myntra", ["myntra.com"]),
   ("Ajio", ["ajio.com"]),
   ("Nykaa", ["nykaa.com"]),
   ("Croma", ["croma.com"]),
   ("Reliance", ["reliancedigital.in", "jiomart.com"]),
   ("Tata", ["tatacliq.com", "bigbasket.com"]),
   ("Paytm", ["paytmmall.com"]),
   ("Shopclues", ["shopclues.com"]),
   ("Snapdeal", ["snapdeal.com"]),
   ("Meesho", ["meesho.com"]),
   ("Blinkit", ["blinkit.com"]),
   ("Zepto", ["zepto.co"]),
   ("Swiggy", ["swiggy.com", "instamart"])]

/-- Does `u` match one of a store's domain patterns? -/
def urlMatchesPats (pats : List String) (u : String) : Bool :=
  pats.any fun p => hasSub true p.toList u.toList

/-- Does `u` match any pattern of any store in the registry? -/
def anyStoreMatch (u : String) : Bool :=
  STORE_PATTERNS.any fun sp => urlMatchesPats sp.2 u

/-- `detectStore` of the source: the first registry entry whose patterns
match wins. -/
def detectStoreFrom : List (String × List String) → String → Option String
  | [], _ => none
  | (name, pats) :: rest, u =>
      if urlMatchesPats pats u then some name else detectStoreFrom rest u

/-- `detectStore` of the source. -/
def detectStore (u : String) : Option String :=
  detectStoreFrom STORE_PATTERNS u

/-- `https?:\/\/` at the head of `s` (case-sensitive): returns the matched
characters and the remainder. -/
def httpHere (s : List Char) : Option (List Char × List Char) :=
  match litHere false ['h', 't', 't', 'p'] s with
  | none => none
  | some r =>
      match r with
      | 's' :: r2 =>
          match litHere false [':', '/', '/'] r2 with
          | some r3 => some (['h', 't', 't', 'p', 's', ':', '/', '/'], r3)
          | none =>
              (litHere false [':', '/', '/'] r).map
                fun r3 => (['h', 't', 't', 'p', ':', '/', '/'], r3)
      | _ =>
          (litHere false [':', '/', '/'] r).map
            fun r3 => (['h', 't', 't', 'p', ':', '/', '/'], r3)

/-- Body class of the plain-URL regex `[^\s\)\]<>]`. -/
def urlBodyPlain (c : Char) : Bool :=
  !isJsWhitespace c && c ≠ ')' && c ≠ ']' && c ≠ '<' && c ≠ '>'

/-- Body class of the title-URL regex `[^\s\)\]]`. -/
def urlBodyTitle (c : Char) : Bool :=
  !isJsWhitespace c && c ≠ ')' && c ≠ ']'

/-- Body class of the markdown-link URL `[^\s\)]`. -/
def urlBodyParen (c : Char) : Bool :=
  !isJsWhitespace c && c ≠ ')'

/-- `https?:\/\/BODY+` at a position: matched characters plus consumed
length. -/
def urlAt (body : Char → Bool) (s : List Char) : Option (List Char × Nat) :=
  match httpHere s with
  | none => none
  | some (head, r) =>
      let run := r.takeWhile body
      if run.isEmpty then none
      else some (head ++ run, head.length + run.length)

/-- `\((https?:\/\/[^\s\)]+)\)` at a position — the capture. -/
def parenUrlAt (s : List Char) : Option (List Char) :=
  match s with
  | '(' :: r =>
      match urlAt urlBodyParen r with
      | some (u, k) =>
          match r.drop k with
          | ')' :: _ => some u
          | _ => none
      | none => none
  | _ => none

/-- `\]\((https?:\/\/[^\s\)]+)\)` at a position: matched characters plus
consumed length. -/
def mdCloseAt (s : List Char) : Option (List Char × Nat) :=
  match s with
  | ']' :: '(' :: r =>
      match urlAt urlBodyParen r with
      | some (u, k) =>
          match r.drop k with
          | ')' :: _ => some (']' :: '(' :: (u ++ [')']), k + 3)
          | _ => none
      | none => none
  | _ => none

/-- The lazy interior of `\[.*?\]\(url\)`: scan forward (the dot cannot
cross a line terminator) for the closing part, accumulating the matched
text. -/
def mdFindClose : List Char → Option (List Char × Nat)
  | [] => none
  | c :: rest =>
      match mdCloseAt (c :: rest) with
      | some mk => some mk
      | none =>
          if isLineTerm c then none
          else
            match mdFindClose rest with
            | some (m, k) => some (c :: m, k + 1)
            | none => none

/-- `\[.*?\]\((https?:\/\/[^\s\)]+)\)` at a position: the full matched
text plus consumed length. -/
def mdLinkAt (s : List Char) : Option (List Char × Nat) :=
  match s with
  | '[' :: r =>
      match mdFindClose r with
      | some (m, k) => some ('[' :: m, k + 1)
      | none => none
  | _ => none

/-- Global matching (`String.match(..g)`): collect non-overlapping matches
left to right, resuming after each match; `fuel` bounds the recursion by
the input length. -/
def matchAllF (f : List Char → Option (List Char × Nat)) :
    Nat → List Char → List (List Char)
  | _, [] => []
  | 0, _ => []
  | fuel + 1, c :: rest =>
      match f (c :: rest) with
      | some (m, k + 1) => m :: matchAllF f fuel ((c :: rest).drop (k + 1))
      | _ => matchAllF f fuel rest

/-- Global matching over a character list. -/
def matchAll (f : List Char → Option (List Char × Nat)) (s : List Char) :
    List (List Char) :=
  matchAllF f s.length s

/-- Global matching for the plain-URL regex, whose `(?<!\()` lookbehind
needs the character preceding each attempted position. -/
def plainUrlsF : Nat → Option Char → List Char → List (List Char)
  | _, _, [] => []
  | 0, _, _ => []
  | fuel + 1, prev, c :: rest =>
      match (if prev == some '(' then none else urlAt urlBodyPlain (c :: rest)) with
      | some (m, k) => m :: plainUrlsF fuel m.getLast? ((c :: rest).drop k)
      | none => plainUrlsF fuel (some c) rest

/-- All matches of `(?<!\()https?:\/\/[^\s\)\]<>]+` in `s`. -/
def plainUrls (s : List Char) : List (List Char) :=
  plainUrlsF s.length none s

/-- The markdown-link pass: full matches of the link regex, each re-scanned
for its first parenthesised URL (exactly as the source re-matches each
link text). -/
def mdUrls (s : List Char) : List String :=
  ((matchAll mdLinkAt s).filterMap fun m => scanFirst parenUrlAt m).map
    fun u => String.mk u

/-!
## The post record

Modelled from the spec: the `RedditPost` shape is delivered by the feed
client (`src/backend/src/services/reddit/client.ts`, not among the
sources); its fields are taken from §3 of the spec and from the accesses
the parser performs (`title`, `selftext`, `is_self`, `url`, `permalink`,
`id`, `score`, `thumbnail`, `preview.images[…].source.url` /
`.resolutions[…].{width,url}`).
-/

/-- One entry of `preview.images[i].resolutions`. -/
structure PreviewResolution where
  width : Nat
  url : String
deriving DecidableEq, Repr

/-- One entry of `preview.images`. -/
structure PreviewImage where
  sourceUrl : String
  resolutions : List PreviewResolution
deriving DecidableEq, Repr

/-- The raw feed post (`RedditPost`); optional fields that JS would carry
as `undefined` are `Option`s. -/
structure RedditPost where
  id : String
  title : String
  selftext : String
  url : String
  permalink : String
  score : Int
  is_self : Bool
  thumbnail : Option String
  preview : Option (List PreviewImage)
deriving DecidableEq, Repr

/-- The candidate-URL list of `extractProductUrl`, in harvest order:
markdown links in the body, plain body URLs, the post URL of a link post,
title URLs, then markdown and plain URLs of each comment. -/
def allUrls (post : RedditPost) (comments : List String) : List String :=
  mdUrls post.selftext.toList
    ++ (plainUrls post.selftext.toList).map (fun u => String.mk u)
    ++ (if !post.is_self && post.url ≠ "" then [post.url] else [])
    ++ (matchAll (urlAt urlBodyTitle) post.title.toList).map (fun u => String.mk u)
    ++ comments.flatMap
        (fun cm => mdUrls cm.toList
          ++ (plainUrls cm.toList).map (fun u => String.mk u))

/-- First pass of `extractProductUrl`: first surviving candidate that
matches a known store. -/
def firstPassLoop : List String → Option String
  | [] => none
  | u :: rest =>
      if isProductUrl u && anyStoreMatch u then some u else firstPassLoop rest

/-- Second pass: first surviving candidate. -/
def secondPassLoop : List String → Option String
  | [] => none
  | u :: rest => if isProductUrl u then some u else secondPassLoop rest

/-- `url.replace(/[\)\]]+$/, "")` — strip trailing brackets. -/
def stripTrail (u : String) : String :=
  String.mk ((u.toList.reverse.dropWhile fun c => c == ')' || c == ']').reverse)

/-- `extractProductUrl` of the source. -/
def extractProductUrl (post : RedditPost) (comments : List String) : String :=
  match firstPassLoop (allUrls post comments) with
  | some u => stripTrail u
  | none =>
      match secondPassLoop (allUrls post comments) with
      | some u => stripTrail u
      | none => "https://reddit.com" ++ post.permalink

/-! ## Category classification (`detectCategory`) -/

/-- `CATEGORY_KEYWORDS` of the source, in declaration order. -/
def CATEGORY_KEYWORDS : List (String × List String) :=
  [("electronics",
    ["laptop", "phone", "mobile", "tablet", "headphone", "earphone",
     "earbud", "speaker", "tv", "television", "monitor", "camera",
     "smartwatch", "watch", "charger", "powerbank", "ssd", "hdd", "ram",
     "processor", "gpu", "keyboard", "mouse", "router", "wifi",
     "bluetooth", "usb", "hdmi", "adapter"]),
   ("fashion",
    ["clothing", "apparel", "fashion", "shirt", "tshirt", "t-shirt",
     "jeans", "trouser", "trousers", "pant", "pants", "dress", "dresses",
     "kurta", "saree", "lehenga", "jacket", "hoodie", "sweater", "shoe",
     "shoes", "sneaker", "sneakers", "sandal", "slipper", "bag",
     "handbag", "wallet", "belt", "sunglass", "sunglasses", "women",
     "men", "kids", "flat off", "% off on"]),
   ("gaming",
    ["game", "gaming", "ps5", "playstation", "xbox", "nintendo",
     "switch", "controller", "joystick", "gaming mouse",
     "gaming keyboard", "gaming headset", "steam", "epic games", "gpu",
     "graphics card", "rtx", "gtx"]),
   ("home-kitchen",
    ["kitchen", "cookware", "utensil", "mixer", "grinder", "blender",
     "microwave", "oven", "refrigerator", "fridge", "washing machine",
     "ac", "air conditioner", "fan", "cooler", "heater", "vacuum",
     "iron", "mattress", "pillow", "bedsheet", "curtain", "furniture",
     "sofa", "chair", "table", "lamp", "light"]),
   ("beauty",
    ["beauty", "skincare", "makeup", "cosmetic", "lipstick",
     "foundation", "mascara", "perfume", "fragrance", "shampoo",
     "conditioner", "hair", "moisturizer", "serum", "sunscreen",
     "face wash", "lotion", "cream"]),
   ("food-groceries",
    ["food", "grocery", "snack", "chocolate", "biscuit", "chips",
     "drink", "beverage", "coffee", "tea", "rice", "dal", "oil",
     "masala", "spice", "fruit", "vegetable", "meat", "chicken", "fish",
     "dairy", "milk", "curd"]),
   ("mobile-accessories",
    ["mobile cover", "phone case", "screen protector", "tempered glass",
     "mobile stand", "phone holder", "car mount", "wireless charger",
     "fast charger", "data cable", "usb cable", "type-c", "lightning",
     "airpods", "buds"]),
   ("books-stationery",
    ["book", "novel", "textbook", "notebook", "diary", "pen", "pencil",
     "marker", "highlighter", "eraser", "sharpener", "ruler",
     "calculator", "backpack", "school bag", "stationery",
     "art supply"]),
   ("travel",
    ["flight", "hotel", "booking", "travel", "trip", "vacation",
     "holiday", "luggage", "suitcase", "trolley", "passport", "visa",
     "ticket", "train", "bus", "cab", "uber", "ola", "makemytrip",
     "goibibo", "cleartrip"])]

/-- Keyword scoring of one category: each keyword occurring as a substring
contributes 2 when longer than five characters, else 1. -/
def keywordScore (lowerText : List Char) (keywords : List String) : Nat :=
  keywords.foldl
    (fun acc kw =>
      if hasSub false kw.toList lowerText then
        acc + (if kw.length > 5 then 2 else 1)
      else acc) 0

/-- The best-score loop of `detectCategory`: a category wins only by a
strictly higher score, so ties keep the earlier entry. -/
def bestCategoryLoop : List (String × List String) → List Char → String → Nat → String × Nat
  | [], _, best, bestScore => (best, bestScore)
  | (cat, kws) :: rest, t, best, bestScore =>
      let sc := keywordScore t kws
      if sc > bestScore then bestCategoryLoop rest t cat sc
      else bestCategoryLoop rest t best bestScore

/-- `detectCategory` of the source (`toLowerCase` modelled on ASCII). -/
def detectCategory (text : String) : String :=
  let res := bestCategoryLoop CATEGORY_KEYWORDS (text.toList.map asciiLower) "other" 0
  if res.2 > 0 then res.1 else "other"

/-! ## Title cleanup (`cleanTitle`) -/

/-- A token of a phrase pattern: a case-insensitive literal or `\s+`. -/
inductive Tok where
  | lit (cs : List Char)
  | ws
deriving Repr

/-- Run a token sequence at the head of a list. -/
def runToks : List Tok → List Char → Option (List Char)
  | [], s => some s
  | Tok.lit cs :: ts, s => (litHere true cs s).bind (runToks ts)
  | Tok.ws :: ts, s =>
      match s with
      | c :: rest =>
          if isJsWhitespace c then runToks ts (rest.dropWhile isJsWhitespace)
          else none
      | [] => none

/-- The filler-phrase alternation
`(link\s+in\s+comments|check\s+comments|see\s+below|read\s+caption)`. -/
def PHRASES : List (List Tok) :=
  [[Tok.lit ("link".toList), Tok.ws, Tok.lit ("in".toList), Tok.ws,
    Tok.lit ("comments".toList)],
   [Tok.lit ("check".toList), Tok.ws, Tok.lit ("comments".toList)],
   [Tok.lit ("see".toList), Tok.ws, Tok.lit ("below".toList)],
   [Tok.lit ("read".toList), Tok.ws, Tok.lit ("caption".toList)]]

/-- First phrase alternative matching at the head of `s`. -/
def firstTokMatch : List (List Tok) → List Char → Option (List Char)
  | [], _ => none
  | p :: ps, s =>
      match runToks p s with
      | some r => some r
      | none => firstTokMatch ps s

/-- Length consumed by a filler phrase matching at this position. -/
def phraseAt (s : List Char) : Option Nat :=
  (firstTokMatch PHRASES s).map fun r => s.length - r.length

/-- Global regex replacement: at each position, replace a match by `rep`
and resume after it, otherwise keep the character; `fuel` bounds the
recursion by the input length. -/
def replAllF (f : List Char → Option Nat) (rep : List Char) :
    Nat → List Char → List Char
  | _, [] => []
  | 0, s => s
  | fuel + 1, c :: rest =>
      match f (c :: rest) with
      | some (k + 1) => rep ++ replAllF f rep fuel ((c :: rest).drop (k + 1))
      | _ => c :: replAllF f rep fuel rest

/-- Global replacement over a character list. -/
def replAll (f : List Char → Option Nat) (rep : List Char) (s : List Char) :
    List Char :=
  replAllF f rep s.length s

/-- `^(huge|mega|super|bumper)\s+(deal|sale|discount|offer)s?[\s:-]*`:
anchored at the string start, so it fires at most once. -/
def hypeStrip (s : List Char) : List Char :=
  match keyHere ["huge".toList, "mega".toList, "super".toList,
                 "bumper".toList] s with
  | none => s
  | some r1 =>
      match r1 with
      | c :: rest =>
          if isJsWhitespace c then
            match keyHere ["deal".toList, "sale".toList, "discount".toList,
                           "offer".toList] (rest.dropWhile isJsWhitespace) with
            | none => s
            | some r3 =>
                let r4 := match r3 with
                  | c2 :: rest2 => if c2 == 's' || c2 == 'S' then rest2 else r3
                  | [] => r3
                r4.dropWhile fun c2 => isJsWhitespace c2 || c2 == ':' || c2 == '-'
          else s
      | [] => s

/-- The emoji ranges `[\u{1F300}-\u{1F9FF}]|[\u{2700}-\u{27BF}]`. -/
def emojiRange (c : Char) : Bool :=
  (0x1F300 ≤ c.toNat && c.toNat ≤ 0x1F9FF) ||
  (0x2700 ≤ c.toNat && c.toNat ≤ 0x27BF)

/-- The decorative-symbol class of the source; the file stores these
double-encoded, and these are the exact code points it contains. -/
def mojiSymbol (c : Char) : Bool :=
  [0x201A, 0xF6, 0xB0, 0xF8FF, 0xFC, 0xEE, 0x2022, 0xAE, 0x2020, 0xD4,
   0x220F, 0xE8, 0xFA, 0xE9, 0xE2].any fun n => c.toNat == n

/-- The class `[!\s\-\|]` stripped from the edges. -/
def edgeCls (c : Char) : Bool :=
  c == '!' || isJsWhitespace c || c == '-' || c == '|'

/-- `^[!\s\-\|]+|[!\s\-\|]+$` as a global replacement equals dropping the
maximal runs at both ends. -/
def edgeStrip (s : List Char) : List Char :=
  ((s.dropWhile edgeCls).reverse.dropWhile edgeCls).reverse

/-- `\s{2,}` at a position: consumed length of the whitespace run. -/
def ws2At (s : List Char) : Option Nat :=
  match s with
  | a :: b :: _ =>
      if isJsWhitespace a && isJsWhitespace b then
        some (s.takeWhile isJsWhitespace).length
      else none
  | _ => none

/-- `charAt(0).toUpperCase() + slice(1)`; an astral first character is
split into surrogates, upper-cased to itself and re-joined, hence left
intact. -/
def capFirst (s : List Char) : List Char :=
  match s with
  | [] => []
  | c :: rest => (if c.toNat < 0x10000 then asciiUpper c else c) :: rest

/-- The `cleaned` local of `cleanTitle`: the full replacement chain before
the length check. -/
def cleanedCore (title : List Char) : List Char :=
  let s1 := replAll phraseAt [] title
  let s2 := hypeStrip s1
  let s3 := s2.filter fun c => !emojiRange c
  let s4 := s3.filter fun c => !mojiSymbol c
  let s5 := edgeStrip s4
  jsTrim (replAll ws2At [' '] s5)

/-- `cleanTitle` of the source, over character lists. -/
def cleanTitleL (title : List Char) : List Char :=
  let cleaned := cleanedCore title
  if jsLength cleaned < 5 then jsTrim title else capFirst cleaned

/-- `cleanTitle` of the source. -/
def cleanTitle (title : String) : String :=
  String.mk (cleanTitleL title.toList)

/-! ## Image resolution (`fetchOgImage`, `extractImageUrl`)

The network fetch is supplied as an oracle from URL to outcome; a thrown
exception / timeout / blocked request is the `failure` constructor, and a
reply carries its HTTP success flag together with the Open-Graph and
Twitter-card image attributes that cheerio would read off the returned
markup. -/

/-- Outcome of the `fetch` capability. -/
inductive FetchOutcome where
  | failure (msg : String)
  | reply (ok : Bool) (ogImage : Option String) (twitterImage : Option String)
deriving DecidableEq, Repr

/-- JS truthiness of an optional string attribute (absent or empty ⇒
falsy). -/
def jsTruthyStr (s : Option String) : Bool :=
  match s with
  | none => false
  | some v => v ≠ ""

/-- `fetchOgImage` of the source: any fetch failure is swallowed by the
surrounding `try`/`catch` and becomes `none`; a non-OK status becomes
`none`; otherwise `og:image`, falling back to `twitter:image`, with
`imageUrl || null` collapsing falsy attributes to `none`. -/
def fetchOgImage (fetchRes : String → FetchOutcome) (url : String) :
    Option String :=
  match fetchRes url with
  | FetchOutcome.failure _ => none
  | FetchOutcome.reply ok og tw =>
      if !ok then none
      else
        let im := if jsTruthyStr og then og else tw
        if jsTruthyStr im then im else none

/-- `resolution.url.replace(/&amp;/g, "&")`. -/
def unescapeAmp (u : String) : String :=
  String.mk (replAll
    (fun s => if leadsWith false ("&amp;".toList) s then some 5 else none)
    ['&'] u.toList)

/-- The preview/thumbnail part of `extractImageUrl` (before the network
step). -/
def previewImageUrl (post : RedditPost) : Option String :=
  let fromPreview : Option String :=
    match post.preview with
    | some images =>
        match images.head? with
        | some img =>
            match img.resolutions.find? fun r => 300 ≤ r.width && r.width ≤ 800 with
            | some r => some (unescapeAmp r.url)
            | none => some (unescapeAmp img.sourceUrl)
        | none => none
    | none => none
  match fromPreview with
  | some u => some u
  | none =>
      match post.thumbnail with
      | some t => if t ≠ "" && t.startsWith "http" then some t else none
      | none => none

/-- Does the chosen image trigger the network fallback?  The JS test is
`!imageUrl || imageUrl.includes("external-preview") ||
imageUrl.includes("redditmedia")` (an empty string is falsy). -/
def imageNeedsFetch (im : Option String) : Bool :=
  match im with
  | none => true
  | some s =>
      s == "" || hasSub false ("external-preview".toList) s.toList ||
        hasSub false ("redditmedia".toList) s.toList

/-- `extractImageUrl` of the source. -/
def extractImageUrl (fetchRes : String → FetchOutcome) (post : RedditPost)
    (productUrl : String) : Option String :=
  let im := previewImageUrl post
  if imageNeedsFetch im && isProductUrl productUrl then
    match fetchOgImage fetchRes productUrl with
    | some og => some og
    | none => im
  else im

/-! ## The orchestrator (`parseRedditPost`) -/

/-- The parsed deal record (`ParsedDeal`). -/
structure ParsedDeal where
  title : String
  description : Option String
  originalPrice : Option ℚ
  dealPrice : Option ℚ
  discountPercent : Option ℤ
  currency : String
  productUrl : String
  imageUrl : Option String
  store : Option String
  categorySlug : String
  redditPostId : String
  redditScore : Int
deriving DecidableEq, Repr

/-- The non-deal title denylist of `parseRedditPost` (each regex is a
case-insensitive literal). -/
def SKIP_TITLE : List String :=
  ["[meta]", "[question]", "[discussion]", "looking for", "suggest me",
   "help needed", "which one"]

/-- Does the raw title match the denylist? -/
def titleIsSkip (t : String) : Bool :=
  SKIP_TITLE.any fun p => hasSub true p.toList t.toList

/-- JS falsiness of an optional price (`!dealPrice`): absent or zero. -/
def jsFalsyQ (v : Option ℚ) : Bool :=
  match v with
  | none => true
  | some x => x == 0

/-- JS falsiness of the optional discount (`!discountPercent`). -/
def jsFalsyZ (v : Option ℤ) : Bool :=
  match v with
  | none => true
  | some x => x == 0

/-- `post.selftext.slice(0, 2000)`. -/
def jsSlice2000 (s : String) : String :=
  String.mk (s.toList.take 2000)

/-- `parseRedditPost` of the source (the async image step takes the fetch
oracle). -/
def parseRedditPost (fetchRes : String → FetchOutcome) (post : RedditPost)
    (comments : List String) : Option ParsedDeal :=
  let fullText := post.title ++ " " ++ post.selftext
  if titleIsSkip post.title then none
  else
    let productUrl := extractProductUrl post comments
    let pi := extractPrices fullText
    let discountPercent := extractDiscount fullText pi.dealPrice pi.originalPrice
    let imageUrl := extractImageUrl fetchRes post productUrl
    if jsFalsyQ pi.dealPrice && jsFalsyZ discountPercent &&
        hasSub false ("reddit.com".toList) productUrl.toList then none
    else
      some
        { title := cleanTitle post.title
          description :=
            if post.selftext = "" then none else some (jsSlice2000 post.selftext)
          originalPrice := pi.originalPrice
          dealPrice := pi.dealPrice
          discountPercent := discountPercent
          currency := pi.currency
          productUrl := productUrl
          imageUrl := imageUrl
          store := detectStore productUrl
          categorySlug := detectCategory fullText
          redditPostId := post.id
          redditScore := post.score }

/-! ## Concrete inputs used by the concrete theorems -/

/-- A fetch oracle on which every request throws. -/
def fetchFail : String → FetchOutcome := fun _ => FetchOutcome.failure "network error"

/-- The end-to-end example post of the spec (§8). -/
def postC1 : RedditPost :=
  { id := "abc"
    title := "🔥 HUGE DEAL: Sony Headphones $199 (was $299) link in comments"
    selftext := ""
    url := "http://amazon.com/dp/xyz"
    permalink := "/r/deals/abc"
    score := 50
    is_self := false
    thumbnail := none
    preview := none }

/-- The URL-preference example post of the spec (§8): both URLs sit in the
body text. -/
def postC4 : RedditPost :=
  { id := "c4"
    title := "A deal"
    selftext := "check this out http://example.com/x then http://amazon.in/dp/123"
    url := ""
    permalink := "/r/deals/c4"
    score := 1
    is_self := true
    thumbnail := none
    preview := none }

/-- A post whose pair pattern extracts a zero deal price. -/
def postC7 : RedditPost :=
  { id := "zero"
    title := "Grab this $0 (was $0)"
    selftext := ""
    url := ""
    permalink := "/r/deals/zero"
    score := 1
    is_self := true
    thumbnail := none
    preview := none }

/-- A post whose title is all whitespace but whose body carries a price. -/
def postC8 : RedditPost :=
  { id := "p8"
    title := "   "
    selftext := "Price is $50 today"
    url := ""
    permalink := "/r/deals/p8"
    score := 5
    is_self := true
    thumbnail := none
    preview := none }

/-- A plain post used to instantiate the universal theorems. -/
def postW : RedditPost :=
  { id := "w8"
    title := "Nice Shoes"
    selftext := "$50"
    url := ""
    permalink := "/r/deals/w8"
    score := 7
    is_self := true
    thumbnail := none
    preview := none }

/-- The deal record `parseRedditPost` produces for `postW`. -/
def dealW : ParsedDeal :=
  { title := "Nice Shoes"
    description := some "$50"
    originalPrice := none
    dealPrice := some 50
    discountPercent := none
    currency := "USD"
    productUrl := "https://reddit.com/r/deals/w8"
    imageUrl := none
    store := none
    categorySlug := "fashion"
    redditPostId := "w8"
    redditScore := 7 }

/-! ## Helper lemmas -/

theorem litHere_append {ci : Bool} {p a : List Char} {r : List Char} (b : List Char)
    (h : litHere ci p a = some r) : litHere ci p (a ++ b) = some (r ++ b) := by
  induction p generalizing a r with
  | nil =>
      simp [litHere] at h
      subst h
      simp [litHere]
  | cons ph pt ih =>
      cases a with
      | nil => simp [litHere] at h
      | cons c cs =>
          simp only [litHere, List.cons_append] at h ⊢
          by_cases hc : (if ci then eqCI ph c else ph == c) = true
          · rw [if_pos hc] at h ⊢
            exact ih h
          · rw [if_neg hc] at h
            exact absurd h (by simp)

theorem leadsWith_append {ci : Bool} {p a : List Char} (b : List Char)
    (h : leadsWith ci p a = true) : leadsWith ci p (a ++ b) = true := by
  unfold leadsWith at h ⊢
  obtain ⟨r, hr⟩ := Option.isSome_iff_exists.mp h
  simp [litHere_append b hr]

theorem hasSub_nil {ci : Bool} (l : List Char) : hasSub ci [] l = true := by
  cases l with
  | nil => rfl
  | cons c r => simp [hasSub, leadsWith, litHere]

theorem hasSub_append_left {ci : Bool} {p a : List Char} (b : List Char)
    (h : hasSub ci p a = true) : hasSub ci p (a ++ b) = true := by
  induction a with
  | nil =>
      have hp : p = [] := by
        cases p with
        | nil => rfl
        | cons x xs => simp [hasSub] at h
      subst hp
      simpa using @hasSub_nil ci b
  | cons c a' ih =>
      simp only [hasSub, Bool.or_eq_true] at h
      rcases h with h | h
      · have := leadsWith_append b h
        simp only [List.cons_append] at this ⊢
        simp [hasSub, this]
      · simp only [List.cons_append, hasSub, Bool.or_eq_true]
        exact Or.inr (ih h)

theorem stripTrail_decomp (u : String) :
    (stripTrail u).toList ++
      ((u.toList.reverse.takeWhile fun c => c == ')' || c == ']').reverse) =
      u.toList := by
  unfold stripTrail
  show ((u.toList.reverse.dropWhile fun c => c == ')' || c == ']').reverse) ++ _ = _
  rw [← List.reverse_append, List.takeWhile_append_dropWhile, List.reverse_reverse]

theorem hasSub_stripTrail {p : List Char} {u : String}
    (h : hasSub false p (stripTrail u).toList = true) :
    hasSub false p u.toList = true := by
  have := hasSub_append_left
    ((u.toList.reverse.takeWhile fun c => c == ')' || c == ']').reverse) h
  rwa [stripTrail_decomp] at this

theorem firstPassLoop_isProduct {l : List String} {u : String}
    (h : firstPassLoop l = some u) : isProductUrl u = true := by
  induction l with
  | nil => simp [firstPassLoop] at h
  | cons x rest ih =>
      simp only [firstPassLoop] at h
      split at h
      · cases h
        rename_i hc
        exact (Bool.and_eq_true _ _).mp hc |>.1
      · exact ih h

theorem secondPassLoop_isProduct {l : List String} {u : String}
    (h : secondPassLoop l = some u) : isProductUrl u = true := by
  induction l with
  | nil => simp [secondPassLoop] at h
  | cons x rest ih =>
      simp only [secondPassLoop] at h
      split at h
      · cases h; assumption
      · exact ih h

theorem isProductUrl_no_reddit {u : String} (h : isProductUrl u = true) :
    hasSub false ("reddit.com".toList) u.toList = false := by
  simp only [isProductUrl] at h
  split at h
  · simp at h
  · split at h
    · simp at h
    · rename_i hr
      simpa using hr

theorem fallback_contains_reddit (p : String) :
    hasSub false ("reddit.com".toList) ("https://reddit.com" ++ p).toList = true := by
  have hbase : hasSub false ("reddit.com".toList) ("https://reddit.com".toList) = true := by
    with_unfolding_all decide
  have := hasSub_append_left p.toList hbase
  rwa [show ("https://reddit.com" ++ p).toList =
    "https://reddit.com".toList ++ p.toList from by
      simp [String.toList, String.data_append]]

theorem firstPassLoop_eq_find (l : List String) :
    firstPassLoop l = l.find? fun u => isProductUrl u && anyStoreMatch u := by
  induction l with
  | nil => rfl
  | cons x rest ih =>
      simp only [firstPassLoop, List.find?_cons]
      cases h : (isProductUrl x && anyStoreMatch x) <;> simp [h, ih]

theorem secondPassLoop_eq_find (l : List String) :
    secondPassLoop l = l.find? fun u => isProductUrl u := by
  induction l with
  | nil => rfl
  | cons x rest ih =>
      simp only [secondPassLoop, List.find?_cons]
      cases h : isProductUrl x <;> simp [h, ih]

theorem discountFromPrices_pos {dp op : Option ℚ} {z : ℤ}
    (h : discountFromPrices dp op = some z) : 0 < z := by
  rcases dp with _ | d <;> rcases op with _ | o <;>
    simp [discountFromPrices] at h
  obtain ⟨-, ⟨h1, -⟩, h3⟩ := h
  omega

theorem extractDiscount_eq_match {text : String} {cap : List Char} (dp op : Option ℚ)
    (hscan : scanFirst discountAt text.toList = some cap) :
    extractDiscount text dp op =
      if 0 < digitsToNat cap ∧ digitsToNat cap ≤ 100 then some (digitsToNat cap : ℤ)
      else discountFromPrices dp op := by
  unfold extractDiscount
  rw [hscan]

theorem extractDiscount_eq_fallback {text : String} (dp op : Option ℚ)
    (hscan : scanFirst discountAt text.toList = none) :
    extractDiscount text dp op = discountFromPrices dp op := by
  unfold extractDiscount
  rw [hscan]

theorem discountFromPrices_eq (d o : ℚ) :
    discountFromPrices (some d) (some o) =
      if d ≠ 0 ∧ o ≠ 0 ∧ d < o then
        if 0 < round ((o - d) / o * 100) ∧ round ((o - d) / o * 100) ≤ 100 then
          some (round ((o - d) / o * 100))
        else none
      else none := rfl

theorem extractDiscount_pos {text : String} {dp op : Option ℚ} {z : ℤ}
    (h : extractDiscount text dp op = some z) : 0 < z := by
  unfold extractDiscount at h
  split at h
  · split at h
    · cases h
      rename_i hb
      exact_mod_cast hb.1
    · exact discountFromPrices_pos h
  · exact discountFromPrices_pos h

theorem jsFalsyZ_extractDiscount (text : String) (dp op : Option ℚ) :
    jsFalsyZ (extractDiscount text dp op) = true ↔
      extractDiscount text dp op = none := by
  cases h : extractDiscount text dp op with
  | none => simp [jsFalsyZ]
  | some z =>
      have hz := extractDiscount_pos h
      simp [jsFalsyZ]
      omega

theorem jsFalsyQ_iff (v : Option ℚ) :
    jsFalsyQ v = true ↔ (v = none ∨ v = some 0) := by
  cases v with
  | none => simp [jsFalsyQ]
  | some x => simp [jsFalsyQ]

theorem char_ofNat_small {n : Nat} (h : n < 0xD800) : (Char.ofNat n).toNat = n := by
  unfold Char.ofNat
  rw [dif_pos (Or.inl h)]
  rfl

theorem asciiUpper_bmp {c : Char} (h : c.toNat < 0x10000) :
    (asciiUpper c).toNat < 0x10000 := by
  unfold asciiUpper
  split
  · rename_i hr
    rw [char_ofNat_small (by omega)]
    omega
  · exact h

theorem jsLength_capFirst (s : List Char) : jsLength (capFirst s) = jsLength s := by
  cases s with
  | nil => rfl
  | cons c rest =>
      simp only [capFirst, jsLength, List.map_cons, List.sum_cons]
      congr 1
      by_cases hc : c.toNat < 0x10000
      · rw [if_pos hc]
        have h2 := asciiUpper_bmp hc
        rw [if_neg (by omega), if_neg (by omega)]
      · rw [if_neg hc]

theorem cleanTitleL_short (t : List Char) (h : jsLength (cleanedCore t) < 5) :
    cleanTitleL t = jsTrim t := by
  simp [cleanTitleL, h]

theorem cleanTitleL_long (t : List Char) (h : ¬jsLength (cleanedCore t) < 5) :
    cleanTitleL t = capFirst (cleanedCore t) := by
  simp [cleanTitleL, h]

theorem jsLength_cleanTitleL (t : List Char) (h : jsLength (cleanTitleL t) < 5) :
    jsLength (jsTrim t) < 5 := by
  by_cases h5 : jsLength (cleanedCore t) < 5
  · rwa [cleanTitleL_short t h5] at h
  · rw [cleanTitleL_long t h5, jsLength_capFirst] at h
    exact absurd h h5

theorem cleanTitleL_empty {t : List Char} (h : cleanTitleL t = []) :
    jsTrim t = [] := by
  by_cases h5 : jsLength (cleanedCore t) < 5
  · rwa [cleanTitleL_short t h5] at h
  · rw [cleanTitleL_long t h5] at h
    cases hc : cleanedCore t with
    | nil => rw [hc] at h5; exact absurd (by simp [jsLength]) h5
    | cons c rest => rw [hc] at h; simp [capFirst] at h

theorem tryMoneyPat_sound {sp : SymPat} {s : List Char} {v : ℚ}
    (h : tryMoneyPat sp s = some v) :
    (0 < v ∧ v < 10000000) ∧ (scanFirst (moneyAt sp) s).isSome = true := by
  unfold tryMoneyPat at h
  split at h
  · simp at h
  · rename_i cap hscan
    split at h
    · simp at h
    · rename_i w hparse
      split at h
      · cases h
        rename_i hb
        exact ⟨hb, by simp [hscan]⟩
      · simp at h

theorem priceFromPats_sound {sps : List SymPat} {s : List Char} {v : ℚ}
    (h : priceFromPats sps s = some v) :
    (0 < v ∧ v < 10000000) ∧
      ∃ sp ∈ sps, (scanFirst (moneyAt sp) s).isSome = true := by
  induction sps with
  | nil => simp [priceFromPats] at h
  | cons sp sps ih =>
      simp only [priceFromPats] at h
      split at h
      · cases h
        rename_i hm
        obtain ⟨hb, hs⟩ := tryMoneyPat_sound hm
        exact ⟨hb, sp, by simp, hs⟩
      · obtain ⟨hb, sp', hmem, hs⟩ := ih h
        exact ⟨hb, sp', by simp [hmem], hs⟩

theorem priceFromCurrencies_sound {l : List (String × List SymPat)}
    {s : List Char} {v : ℚ} {cur : String}
    (h : priceFromCurrencies l s = some (v, cur)) :
    (0 < v ∧ v < 10000000) ∧
      ∃ pats, (cur, pats) ∈ l ∧
        ∃ sp ∈ pats, (scanFirst (moneyAt sp) s).isSome = true := by
  induction l with
  | nil => simp [priceFromCurrencies] at h
  | cons e rest ih =>
      obtain ⟨c0, pats0⟩ := e
      simp only [priceFromCurrencies] at h
      split at h
      · rename_i hm
        cases h
        obtain ⟨hb, sp, hmem, hs⟩ := priceFromPats_sound hm
        exact ⟨hb, pats0, by simp, sp, hmem, hs⟩
      · obtain ⟨hb, pats, hmem, rest'⟩ := ih h
        exact ⟨hb, pats, by simp [hmem], rest'⟩

theorem extractProductUrl_first {post : RedditPost} {comments : List String}
    {u : String} (h1 : firstPassLoop (allUrls post comments) = some u) :
    extractProductUrl post comments = stripTrail u := by
  unfold extractProductUrl
  rw [h1]

theorem extractProductUrl_second {post : RedditPost} {comments : List String}
    {u : String} (h1 : firstPassLoop (allUrls post comments) = none)
    (h2 : secondPassLoop (allUrls post comments) = some u) :
    extractProductUrl post comments = stripTrail u := by
  unfold extractProductUrl
  rw [h1, h2]

theorem extractProductUrl_fallback {post : RedditPost} {comments : List String}
    (h1 : firstPassLoop (allUrls post comments) = none)
    (h2 : secondPassLoop (allUrls post comments) = none) :
    extractProductUrl post comments = "https://reddit.com" ++ post.permalink := by
  unfold extractProductUrl
  rw [h1, h2]

theorem extractProductUrl_reddit_iff (post : RedditPost) (comments : List String) :
    hasSub false ("reddit.com".toList) (extractProductUrl post comments).toList = true ↔
      extractProductUrl post comments = "https://reddit.com" ++ post.permalink := by
  cases h1 : firstPassLoop (allUrls post comments) with
  | some u =>
      have hno := isProductUrl_no_reddit (firstPassLoop_isProduct h1)
      rw [extractProductUrl_first h1]
      constructor
      · intro h
        have hh := hasSub_stripTrail h
        rw [hno] at hh
        exact absurd hh (by simp)
      · intro h
        have hh : hasSub false ("reddit.com".toList) (stripTrail u).toList = true := by
          rw [h]
          exact fallback_contains_reddit post.permalink
        have hh2 := hasSub_stripTrail hh
        rw [hno] at hh2
        exact absurd hh2 (by simp)
  | none =>
      cases h2 : secondPassLoop (allUrls post comments) with
      | some u =>
          have hno := isProductUrl_no_reddit (secondPassLoop_isProduct h2)
          rw [extractProductUrl_second h1 h2]
          constructor
          · intro h
            have hh := hasSub_stripTrail h
            rw [hno] at hh
            exact absurd hh (by simp)
          · intro h
            have hh : hasSub false ("reddit.com".toList) (stripTrail u).toList = true := by
              rw [h]
              exact fallback_contains_reddit post.permalink
            have hh2 := hasSub_stripTrail hh
            rw [hno] at hh2
            exact absurd hh2 (by simp)
      | none =>
          rw [extractProductUrl_fallback h1 h2]
          exact iff_of_true (fallback_contains_reddit post.permalink) rfl

/-! ## Claim theorems -/

/-- Claim C1 (counterexample): on the spec's end-to-end example post the
parser does not return the title `"Sony Headphones"`; the actual title keeps
the hype prefix and the price text, because `cleanTitle` strips neither
prices nor a hype marker that is not at the very start of the string (the
emoji precedes it when the anchored hype pattern runs). -/
theorem c1_counterexample :
    (parseRedditPost fetchFail postC1 []).map ParsedDeal.title =
      some "HUGE DEAL: Sony Headphones $199 (was $299)" ∧
    ("HUGE DEAL: Sony Headphones $199 (was $299)" : String) ≠ "Sony Headphones" :=
  ⟨by with_unfolding_all decide, by decide⟩

/-- Claim C1 (amended): the end-to-end example returns a `ParsedDeal` with
dealPrice 199, originalPrice 299, discountPercent 33, currency `"USD"`,
store `"Amazon"`, category `"electronics"` and the amazon product URL, but
with title `"HUGE DEAL: Sony Headphones $199 (was $299)"`. -/
theorem c1_end_to_end :
    parseRedditPost fetchFail postC1 [] =
      some
        { title := "HUGE DEAL: Sony Headphones $199 (was $299)"
          description := none
          originalPrice := some 299
          dealPrice := some 199
          discountPercent := some 33
          currency := "USD"
          productUrl := "http://amazon.com/dp/xyz"
          imageUrl := none
          store := some "Amazon"
          categorySlug := "electronics"
          redditPostId := "abc"
          redditScore := 50 } := by
  with_unfolding_all decide

/-- Claim C2: whenever the pair-price loop produces two (numeric) captures,
`extractPrices` takes the smaller as deal price and the larger as original
price — so `originalPrice ≥ dealPrice` whenever both are present — and when
no pair pattern produces a result it falls back to the single-price mode
with `originalPrice = none`. -/
theorem c2_pair_order (text : String) :
    (∀ a b cur, pairScanFrom DEAL_PATTERNS text.toList = some (a, b, cur) →
        extractPrices text = ⟨some (min a b), some (max a b), cur⟩) ∧
    (pairScanFrom DEAL_PATTERNS text.toList = none →
        extractPrices text =
          ⟨(extractPriceWithCurrency text).1, none, (extractPriceWithCurrency text).2⟩) ∧
    (∀ d o, (extractPrices text).dealPrice = some d →
        (extractPrices text).originalPrice = some o → d ≤ o) := by
  refine ⟨?_, ?_, ?_⟩
  · intro a b cur h
    unfold extractPrices
    rw [h]
  · intro h
    unfold extractPrices
    rw [h]
  · intro d o hd ho
    unfold extractPrices at hd ho
    cases h : pairScanFrom DEAL_PATTERNS text.toList with
    | some t =>
        obtain ⟨a, b, cur⟩ := t
        rw [h] at hd ho
        simp at hd ho
        rw [← hd, ← ho]
        exact min_le_max
    | none =>
        rw [h] at ho
        simp at ho

/-- Witness for C2 at a text whose two amounts appear in reversed order. -/
theorem c2_pair_order_witness :
    extractPrices "$ 299 (was $ 199)" =
      ⟨some (min 299 199), some (max 299 199), "USD"⟩ :=
  (c2_pair_order "$ 299 (was $ 199)").1 299 199 "USD" (by decide)

/-- Claim C3 (counterexample): with `dealPrice = 0` (falsy in JS),
`originalPrice = 100` and no explicit percentage phrase, the claimed
derived value `round((100 − 0)/100·100) = 100` lies in `(0, 100]` and both
prices are present, yet `extractDiscount` returns `none`. -/
theorem c3_counterexample :
    extractDiscount "" (some 0) (some 100) = none ∧
    scanFirst discountAt ("" : String).toList = none ∧
    (0 : ℚ) < 100 ∧
    round ((100 - 0 : ℚ) / 100 * 100) = 100 := by
  refine ⟨by with_unfolding_all decide, by decide,
    by norm_num, by norm_num [round_eq]⟩

/-- Claim C3 (amended): `extractDiscount` prefers the first explicit
`N% off/discount` match when `1 ≤ N ≤ 100`; otherwise it falls back to the
price-derived value `round((original − deal)/original · 100)`, which is
returned only when both prices are present **and nonzero** (JS truthiness)
with `original > deal` and the rounded value lies in `(0, 100]`; otherwise
the result is `none`; in particular `deal = 80, original = 100` gives 20. -/
theorem c3_discount_priority (text : String) (dp op : Option ℚ) :
    ((∃ cap, scanFirst discountAt text.toList = some cap ∧
        0 < digitsToNat cap ∧ digitsToNat cap ≤ 100) →
      ∀ cap, scanFirst discountAt text.toList = some cap →
        extractDiscount text dp op = some ((digitsToNat cap : ℤ))) ∧
    ((¬∃ cap, scanFirst discountAt text.toList = some cap ∧
        0 < digitsToNat cap ∧ digitsToNat cap ≤ 100) →
      extractDiscount text dp op = discountFromPrices dp op) ∧
    (∀ d o, dp = some d → op = some o → d ≠ 0 → o ≠ 0 → d < o →
      0 < round ((o - d) / o * 100) → round ((o - d) / o * 100) ≤ 100 →
      discountFromPrices dp op = some (round ((o - d) / o * 100))) ∧
    (discountFromPrices dp op = none ↔
      ¬∃ d o, dp = some d ∧ op = some o ∧ d ≠ 0 ∧ o ≠ 0 ∧ d < o ∧
        0 < round ((o - d) / o * 100) ∧ round ((o - d) / o * 100) ≤ 100) ∧
    extractDiscount "" (some 80) (some 100) = some 20 := by
  refine ⟨?_, ?_, ?_, ?_, by with_unfolding_all decide⟩
  · rintro ⟨cap0, hscan0, hlo, hhi⟩ cap hscan
    rw [hscan0] at hscan
    cases hscan
    rw [extractDiscount_eq_match dp op hscan0, if_pos ⟨hlo, hhi⟩]
  · intro hne
    cases hscan : scanFirst discountAt text.toList with
    | none => exact extractDiscount_eq_fallback dp op hscan
    | some cap =>
        by_cases hc : 0 < digitsToNat cap ∧ digitsToNat cap ≤ 100
        · exact absurd ⟨cap, hscan, hc⟩ hne
        · rw [extractDiscount_eq_match dp op hscan, if_neg hc]
  · intro d o hd ho hd0 ho0 hlt h1 h2
    subst hd
    subst ho
    rw [discountFromPrices_eq, if_pos ⟨hd0, ho0, hlt⟩, if_pos ⟨h1, h2⟩]
  · constructor
    · intro h
      rintro ⟨d, o, rfl, rfl, hd0, ho0, hlt, h1, h2⟩
      rw [discountFromPrices_eq, if_pos ⟨hd0, ho0, hlt⟩, if_pos ⟨h1, h2⟩] at h
      exact absurd h (by simp)
    · intro h
      rcases dp with _ | d
      · rfl
      rcases op with _ | o
      · rfl
      rw [discountFromPrices_eq]
      by_cases hc : d ≠ 0 ∧ o ≠ 0 ∧ d < o
      · rw [if_pos hc]
        by_cases hr : 0 < round ((o - d) / o * 100) ∧ round ((o - d) / o * 100) ≤ 100
        · exact absurd ⟨d, o, rfl, rfl, hc.1, hc.2.1, hc.2.2, hr.1, hr.2⟩ h
        · rw [if_neg hr]
      · rw [if_neg hc]

/-- Witness for C3: the derived branch at `deal = 80, original = 100`. -/
theorem c3_discount_priority_witness :
    discountFromPrices (some 80) (some 100) =
      some (round ((100 - 80 : ℚ) / 100 * 100)) :=
  (c3_discount_priority "" (some 80) (some 100)).2.2.1 80 100 rfl rfl
    (by norm_num) (by norm_num) (by norm_num) (by norm_num [round_eq])
    (by norm_num [round_eq])

/-- Claim C4: `extractProductUrl` is the two-pass selection — the first
surviving candidate matching a known merchant wins, else the first
surviving candidate, else the permalink fallback — and on the spec's
example body the later amazon.in URL beats the earlier example.com URL. -/
theorem c4_two_pass :
    (∀ (post : RedditPost) (comments : List String),
      extractProductUrl post comments =
        match (allUrls post comments).find?
            (fun u => isProductUrl u && anyStoreMatch u) with
        | some u => stripTrail u
        | none =>
            match (allUrls post comments).find? (fun u => isProductUrl u) with
            | some u => stripTrail u
            | none => "https://reddit.com" ++ post.permalink) ∧
    extractProductUrl postC4 [] = "http://amazon.in/dp/123" := by
  constructor
  · intro post comments
    unfold extractProductUrl
    rw [firstPassLoop_eq_find, secondPassLoop_eq_find]
  · decide

/-- Claim C5: `extractPriceWithCurrency` either accepts a value in
`(0, 10000000)` found by some pattern of the reported currency, or returns
no price with the `"USD"` default. -/
theorem c5_single_price (text : String) :
    ((extractPriceWithCurrency text).1 = none →
      (extractPriceWithCurrency text).2 = "USD") ∧
    (∀ v, (extractPriceWithCurrency text).1 = some v →
      (0 < v ∧ v < 10000000) ∧
        ∃ pats, ((extractPriceWithCurrency text).2, pats) ∈ CURRENCY_PATTERNS ∧
          ∃ sp ∈ pats, (scanFirst (moneyAt sp) text.toList).isSome = true) := by
  unfold extractPriceWithCurrency
  cases h : priceFromCurrencies CURRENCY_PATTERNS text.toList with
  | none => simp
  | some pc =>
      obtain ⟨v0, cur0⟩ := pc
      constructor
      · intro hn
        simp at hn
      · intro v hv
        simp only [Option.some.injEq] at hv
        subst hv
        exact priceFromCurrencies_sound h

/-- Witness for C5 at a text with no currency marker. -/
theorem c5_single_price_witness :
    (extractPriceWithCurrency "no price here").2 = "USD" :=
  (c5_single_price "no price here").1 (by decide)

/-- Claim C6 (counterexample): the input `"  ab  "` has 6 characters, yet
`cleanTitle` returns `"ab"` (2 characters), and that fallback result is not
capitalized. -/
theorem c6_counterexample :
    cleanTitle "  ab  " = "ab" ∧
    jsLength (("  ab  " : String).toList) = 6 ∧
    jsLength (("ab" : String).toList) = 2 ∧
    ("ab" : String) ≠ "Ab" :=
  ⟨by decide, by decide, by decide, by decide⟩

/-- Claim C6 (amended): `cleanTitle` never returns a string shorter than 5
UTF-16 units unless the **trimmed** original is already shorter than 5; a
too-short cleaned result is discarded in favour of the trimmed original
returned **unchanged** (not capitalized), and only the cleaned branch
upper-cases the first character. -/
theorem c6_short_fallback (t : List Char) :
    (jsLength (cleanTitleL t) < 5 → jsLength (jsTrim t) < 5) ∧
    (jsLength (cleanedCore t) < 5 → cleanTitleL t = jsTrim t) ∧
    (¬jsLength (cleanedCore t) < 5 → cleanTitleL t = capFirst (cleanedCore t)) :=
  ⟨jsLength_cleanTitleL t, cleanTitleL_short t, cleanTitleL_long t⟩

/-- Witness for C6 at the fallback input `"  ab  "`. -/
theorem c6_short_fallback_witness :
    cleanTitleL (("  ab  " : String).toList) = jsTrim (("  ab  " : String).toList) :=
  (c6_short_fallback (("  ab  " : String).toList)).2.1 (by decide)

/-- Claim C7 (counterexample): the post titled `"Grab this $0 (was $0)"`
(no body, no links) has a dealPrice **extracted** — it is `some 0` — and a
denylist-free title, yet `parseRedditPost` returns `none`, because the JS
gate `!dealPrice` treats the extracted 0 as missing. -/
theorem c7_counterexample :
    parseRedditPost fetchFail postC7 [] = none ∧
    (extractPrices (postC7.title ++ " " ++ postC7.selftext)).dealPrice = some 0 ∧
    titleIsSkip postC7.title = false :=
  ⟨by decide, by decide, by decide⟩

/-- Claim C7 (amended): `parseRedditPost` returns `none` exactly when the
raw title matches the denylist, or all three hold: the extracted dealPrice
is absent **or zero** (JS falsiness), no discount was derived, and the
product URL resolved to the feed's own permalink fallback. -/
theorem c7_null_iff (fetchRes : String → FetchOutcome) (post : RedditPost)
    (comments : List String) :
    parseRedditPost fetchRes post comments = none ↔
      (titleIsSkip post.title = true ∨
        (((extractPrices (post.title ++ " " ++ post.selftext)).dealPrice = none ∨
          (extractPrices (post.title ++ " " ++ post.selftext)).dealPrice = some 0) ∧
         extractDiscount (post.title ++ " " ++ post.selftext)
           (extractPrices (post.title ++ " " ++ post.selftext)).dealPrice
           (extractPrices (post.title ++ " " ++ post.selftext)).originalPrice = none ∧
         extractProductUrl post comments = "https://reddit.com" ++ post.permalink)) := by
  simp only [parseRedditPost]
  cases hskip : titleIsSkip post.title with
  | true => simp
  | false =>
      simp only [Bool.false_eq_true, if_false]
      rw [show ∀ (b : Bool) (r : ParsedDeal),
        ((if b = true then none else some r) = none ↔ b = true) from by
          intro b r
          cases b <;> simp]
      rw [Bool.and_eq_true, Bool.and_eq_true]
      rw [jsFalsyQ_iff, jsFalsyZ_extractDiscount, extractProductUrl_reddit_iff]
      simp [and_assoc]

/-- Claim C8 (counterexample): a post whose title is all whitespace but
whose body carries a price yields a `ParsedDeal` with an **empty** title. -/
theorem c8_counterexample :
    (parseRedditPost fetchFail postC8 []).map ParsedDeal.title = some "" := by
  decide

/-- Claim C8 (amended): every `ParsedDeal` produced by `parseRedditPost`
carries `title = cleanTitle (raw title)`, and that title is non-empty
whenever the trimmed raw title is non-empty. -/
theorem c8_title_nonempty (fetchRes : String → FetchOutcome) (post : RedditPost)
    (comments : List String) (deal : ParsedDeal)
    (h : parseRedditPost fetchRes post comments = some deal) :
    deal.title = cleanTitle post.title ∧
      (jsTrim post.title.toList ≠ [] → deal.title ≠ "") := by
  have htitle : deal.title = cleanTitle post.title := by
    simp only [parseRedditPost] at h
    split at h
    · exact absurd h (by simp)
    · split at h
      · exact absurd h (by simp)
      · simp only [Option.some.injEq] at h
        rw [← h]
  refine ⟨htitle, fun hne hemp => hne ?_⟩
  have hclean : cleanTitle post.title = "" := htitle ▸ hemp
  have hlist : cleanTitleL post.title.toList = [] := by
    have := congrArg String.data hclean
    simpa [cleanTitle, String.mk] using this
  exact cleanTitleL_empty hlist

/-- Witness for C8 at a plain post with a price in the body. -/
theorem c8_title_nonempty_witness :
    dealW.title = cleanTitle postW.title ∧
      (jsTrim postW.title.toList ≠ [] → dealW.title ≠ "") :=
  c8_title_nonempty fetchFail postW [] dealW (by decide)

/-- Claim C9: a failing fetch makes `fetchOgImage` return `none` (the
exception is swallowed), and when every fetch fails and the post offers no
preview or thumbnail, image resolution yields `none` instead of an error. -/
theorem c9_image_never_fails (fetchRes : String → FetchOutcome) (url msg : String)
    (post : RedditPost) (productUrl : String) :
    (fetchRes url = FetchOutcome.failure msg → fetchOgImage fetchRes url = none) ∧
    ((∀ u, ∃ m, fetchRes u = FetchOutcome.failure m) → post.preview = none →
      post.thumbnail = none → extractImageUrl fetchRes post productUrl = none) := by
  constructor
  · intro h
    unfold fetchOgImage
    rw [h]
  · intro hall hp ht
    have hprev : previewImageUrl post = none := by
      simp [previewImageUrl, hp, ht]
    obtain ⟨m, hm⟩ := hall productUrl
    have hfetch : fetchOgImage fetchRes productUrl = none := by
      unfold fetchOgImage
      rw [hm]
    simp [extractImageUrl, hprev, hfetch]

/-- Witness for C9: the always-failing oracle on a bare post. -/
theorem c9_image_never_fails_witness :
    fetchOgImage fetchFail "http://example.com" = none ∧
      extractImageUrl fetchFail postW "http://example.com" = none :=
  ⟨(c9_image_never_fails fetchFail "http://example.com" "network error" postW
      "http://example.com").1 rfl,
   (c9_image_never_fails fetchFail "http://example.com" "network error" postW
      "http://example.com").2 (fun _ => ⟨"network error", rfl⟩) rfl rfl⟩

/-- Claim C10: the pair-price path applies no magnitude bound — it accepts
a zero deal price and an original price of 99999999 — while the
single-price mode rejects both 0 and values at or above 10000000. -/
theorem c10_pair_no_bounds :
    (extractPrices "Grab this $0 (was $5)").dealPrice = some 0 ∧
    (extractPrices "$5 (was $99999999)").originalPrice = some 99999999 ∧
    (10000000 : ℚ) ≤ 99999999 ∧
    (extractPriceWithCurrency "$0").1 = none ∧
    (extractPriceWithCurrency "$99999999").1 = none :=
  ⟨by decide, by decide, by norm_num, by decide, by decide⟩

end DealHunt
